import Mathlib

/-!
Verification of the soustack-demo recipe core: a shallow embedding of the
Scaler (`src/lib/scaling/scaling.ts`) and the Normalizer (`src/lib/normalize.ts`,
the revision whose `normalizeToDisplay` accepts the full `SoustackRecipe`
shape), together with theorems settling the specification claims.

Modelling conventions:
* JavaScript numbers are modelled by `JsNum`: `NaN`, the two infinities, and
  finite values as exact rationals.  Arithmetic on finite values is exact
  rational arithmetic (the ideal-arithmetic reading of the algorithms); the
  NaN/infinity propagation rules of IEEE are modelled explicitly.  JavaScript's
  negative zero is not distinguished from zero.
* `undefined` fields are `Option.none`; JavaScript objects are structures with
  `Option` fields, so that key-presence tests (`'k' in o`) become `isSome`.
* JavaScript number-to-string conversion is exact for integers and terminating
  decimals (the only values the claims exercise); other rationals fall back to
  a `num/den` rendering, standing in for the shortest-round-trip rendering.
-/

namespace Soustack

/-- Model of a JavaScript number: NaN, ±Infinity, or a finite (exact rational)
value. -/
inductive JsNum where
  | nan : JsNum
  | inf : JsNum
  | ninf : JsNum
  | fin (q : ℚ) : JsNum
deriving DecidableEq

namespace JsNum

/-- JS multiplication with NaN/infinity propagation. -/
def jsMul : JsNum → JsNum → JsNum
  | nan, _ => nan
  | _, nan => nan
  | fin a, fin b => fin (a * b)
  | inf, fin b => if 0 < b then inf else if b < 0 then ninf else nan
  | fin a, inf => if 0 < a then inf else if a < 0 then ninf else nan
  | ninf, fin b => if 0 < b then ninf else if b < 0 then inf else nan
  | fin a, ninf => if 0 < a then ninf else if a < 0 then inf else nan
  | inf, inf => inf
  | inf, ninf => ninf
  | ninf, inf => ninf
  | ninf, ninf => inf

/-- JS subtraction with NaN/infinity propagation. -/
def jsSub : JsNum → JsNum → JsNum
  | nan, _ => nan
  | _, nan => nan
  | fin a, fin b => fin (a - b)
  | inf, fin _ => inf
  | ninf, fin _ => ninf
  | fin _, inf => ninf
  | fin _, ninf => inf
  | inf, inf => nan
  | inf, ninf => inf
  | ninf, inf => ninf
  | ninf, ninf => nan

/-- JS division with NaN/infinity propagation (negative zero not modelled:
division of a nonzero finite value by zero yields the infinity of the
numerator's sign). -/
def jsDiv : JsNum → JsNum → JsNum
  | nan, _ => nan
  | _, nan => nan
  | fin a, fin b =>
    if b = 0 then (if a = 0 then nan else if 0 < a then inf else ninf)
    else fin (a / b)
  | inf, fin b => if b < 0 then ninf else inf
  | ninf, fin b => if b < 0 then inf else ninf
  | fin _, inf => fin 0
  | fin _, ninf => fin 0
  | inf, inf => nan
  | inf, ninf => nan
  | ninf, inf => nan
  | ninf, ninf => nan

/-- JS `Math.abs`. -/
def jsAbs : JsNum → JsNum
  | nan => nan
  | inf => inf
  | ninf => inf
  | fin q => fin |q|

/-- JS `Math.floor` (identity on NaN and the infinities). -/
def jsFloor : JsNum → JsNum
  | nan => nan
  | inf => inf
  | ninf => ninf
  | fin q => fin ((⌊q⌋ : ℤ) : ℚ)

/-- JS `Math.round`: half-up, i.e. `⌊x + 1/2⌋` (identity on NaN/infinities). -/
def jsRound : JsNum → JsNum
  | nan => nan
  | inf => inf
  | ninf => ninf
  | fin q => fin ((⌊q + 1/2⌋ : ℤ) : ℚ)

/-- JS `<` comparison: false whenever either side is NaN. -/
def jsLt : JsNum → JsNum → Bool
  | nan, _ => false
  | _, nan => false
  | fin a, fin b => decide (a < b)
  | ninf, ninf => false
  | ninf, _ => true
  | _, ninf => false
  | inf, _ => false
  | fin _, inf => true

/-- JS `<=` comparison: false whenever either side is NaN. -/
def jsLe : JsNum → JsNum → Bool
  | nan, _ => false
  | _, nan => false
  | fin a, fin b => decide (a ≤ b)
  | ninf, _ => true
  | _, ninf => false
  | _, inf => true
  | inf, fin _ => false

/-- JS strict equality `===` on numbers: `NaN === x` is always false. -/
def jsStrictEq : JsNum → JsNum → Bool
  | nan, _ => false
  | _, nan => false
  | fin a, fin b => decide (a = b)
  | inf, inf => true
  | ninf, ninf => true
  | _, _ => false

/-- JS strict inequality `!==` on numbers. -/
def jsStrictNe (a b : JsNum) : Bool := !(jsStrictEq a b)

end JsNum

/-- JS `Math.round` on a plain rational: `⌊q + 1/2⌋` as a rational. -/
def jsRoundQ (q : ℚ) : ℚ := ((⌊q + 1/2⌋ : ℤ) : ℚ)

/-- JS `Math.trunc`-style truncation toward zero. -/
def jsTrunc (q : ℚ) : ℤ := if 0 ≤ q then ⌊q⌋ else -⌊-q⌋

/-- JS remainder `a % b` (sign follows the dividend, truncated quotient). -/
def jsModQ (a b : ℚ) : ℚ := a - b * (jsTrunc (a / b) : ℚ)

/-- Digit characters 0-9 folded into a natural number, as `parseInt` does on an
all-digit capture. -/
def natOfDigits (l : List Char) : ℕ :=
  l.foldl (fun acc c => acc * 10 + (c.toNat - 48)) 0

/-- Left-pad a string with zeros to the given length. -/
def padZeros (k : ℕ) (s : String) : String :=
  String.mk (List.replicate (k - s.length) '0') ++ s

/-- Decimal rendering of a nonnegative rational `q` whose denominator divides
`10^k`: integer part, a dot, then exactly `k` fractional digits. -/
def renderDecimal (q : ℚ) (k : ℕ) : String :=
  let n : ℕ := (q * (10 : ℚ) ^ k).num.toNat
  toString (n / 10 ^ k) ++ "." ++ padZeros k (toString (n % 10 ^ k))

/-- JS number-to-string for a nonnegative rational: exact for integers and
terminating decimals (shortest decimal form, found by the minimal power of ten
clearing the denominator); non-terminating rationals fall back to a `num/den`
rendering, a modelling stand-in for JS shortest-round-trip output (not
exercised by any claim). -/
def ratToJsStringNonneg (q : ℚ) : String :=
  if q.den = 1 then toString q.num
  else
    match (List.range 64).find? (fun k => (q * (10 : ℚ) ^ k).den = 1) with
    | some k => renderDecimal q k
    | none => toString q.num ++ "/" ++ toString q.den

/-- JS number-to-string conversion of a rational (sign handled first). -/
def ratToJsString (q : ℚ) : String :=
  if q < 0 then "-" ++ ratToJsStringNonneg (-q) else ratToJsStringNonneg q

/-- JS `String(x)` for a modelled number. -/
def jsNumToString : JsNum → String
  | .nan => "NaN"
  | .inf => "Infinity"
  | .ninf => "-Infinity"
  | .fin q => ratToJsString q

/-! ## Scaling module (`src/lib/scaling/scaling.ts`) -/

/-- A quantity value as it arrives from JSON: a number or a string. -/
inductive QVal where
  | num (n : JsNum) : QVal
  | str (s : String) : QVal
deriving DecidableEq

/-- JS `String(x)` on a quantity value. -/
def qvalToString : QVal → String
  | .num n => jsNumToString n
  | .str s => s

/-- `scaling.mode` values (`ScalingMode` in `scaling.ts`). -/
inductive ScalingMode where
  | proportional : ScalingMode
  | toTaste : ScalingMode
  | fixed : ScalingMode
deriving DecidableEq

/-- `ScalableIngredient` from `scaling.ts`; `scalingMode` collapses the
optional `scaling?.mode?` chain into a single `Option`. -/
structure ScalableIngredient where
  name : String
  quantity : Option QVal := none
  unit : Option String := none
  scalingMode : Option ScalingMode := none

/-- Matcher for the regex `^(\d+)\/(\d+)$`: a digit run, a slash, a digit run,
end of string. -/
def fracMatchL : List Char → Option (ℕ × ℕ) :=
  fun l =>
    let p1 := l.span Char.isDigit
    match p1.2 with
    | '/' :: rest =>
      let p2 := rest.span Char.isDigit
      if p1.1 ≠ [] ∧ p2.1 ≠ [] ∧ p2.2 = [] then
        some (natOfDigits p1.1, natOfDigits p2.1)
      else none
    | _ => none

/-- String-level wrapper for the simple-fraction regex. -/
def fracMatch (s : String) : Option (ℕ × ℕ) := fracMatchL s.data

/-- Matcher for the regex `^(\d+)\s+(\d+)\/(\d+)$` (mixed fraction): a digit
run, whitespace, a digit run, a slash, a digit run, end of string. -/
def mixedMatchL : List Char → Option (ℕ × ℕ × ℕ) :=
  fun l =>
    let p1 := l.span Char.isDigit
    let pw := p1.2.span Char.isWhitespace
    if p1.1 = [] ∨ pw.1 = [] then none
    else
      match fracMatchL pw.2 with
      | some (a, b) => some (natOfDigits p1.1, a, b)
      | none => none

/-- String-level wrapper for the mixed-fraction regex. -/
def mixedMatch (s : String) : Option (ℕ × ℕ × ℕ) := mixedMatchL s.data

/-- One exponent-part parse for `parseFloat`: `e`/`E`, optional sign, digits. -/
def parseFloatExp (l : List Char) : ℤ :=
  match l with
  | 'e' :: rest => parseFloatExpSigned rest
  | 'E' :: rest => parseFloatExpSigned rest
  | _ => 0
where
  parseFloatExpSigned : List Char → ℤ
    | '+' :: rest => parseFloatExpDigits rest
    | '-' :: rest => - parseFloatExpDigits rest
    | rest => parseFloatExpDigits rest
  parseFloatExpDigits (rest : List Char) : ℤ :=
    let d := rest.span Char.isDigit
    if d.1 = [] then 0 else (natOfDigits d.1 : ℤ)

/-- Whether an exponent part is present and well-formed at the given suffix
(otherwise `parseFloat` stops before the `e`). -/
def hasWellFormedExp (l : List Char) : Bool :=
  match l with
  | 'e' :: rest => hasExpTail rest
  | 'E' :: rest => hasExpTail rest
  | _ => false
where
  hasExpTail : List Char → Bool
    | '+' :: rest => !(rest.span Char.isDigit).1.isEmpty
    | '-' :: rest => !(rest.span Char.isDigit).1.isEmpty
    | rest => !(rest.span Char.isDigit).1.isEmpty

/-- Core of JS `parseFloat` after sign handling: parses the longest prefix of
the form `digits [. digits] [exp]` or `. digits [exp]`; `none` when no digit is
found (NaN). -/
def parseFloatMag (l : List Char) : Option ℚ :=
  let ip := l.span Char.isDigit
  match ip.2 with
  | '.' :: afterDot =>
    let fp := afterDot.span Char.isDigit
    if ip.1 = [] ∧ fp.1 = [] then none
    else
      let base : ℚ := (natOfDigits ip.1 : ℚ) +
        (natOfDigits fp.1 : ℚ) / (10 : ℚ) ^ fp.1.length
      if hasWellFormedExp fp.2 then some (base * (10 : ℚ) ^ parseFloatExp fp.2)
      else some base
  | rest =>
    if ip.1 = [] then none
    else
      let base : ℚ := (natOfDigits ip.1 : ℚ)
      if hasWellFormedExp rest then some (base * (10 : ℚ) ^ parseFloatExp rest)
      else some base

/-- JS `parseFloat`: skip leading whitespace, optional sign, then `Infinity`
or a decimal literal prefix; `none` models the NaN result. -/
def parseFloatJs (s : String) : Option JsNum :=
  let l := s.data.dropWhile Char.isWhitespace
  match l with
  | '+' :: rest => parseFloatSignless rest false
  | '-' :: rest => parseFloatSignless rest true
  | rest => parseFloatSignless rest false
where
  parseFloatSignless (l : List Char) (neg : Bool) : Option JsNum :=
    if ['I','n','f','i','n','i','t','y'].isPrefixOf l then
      some (if neg then JsNum.ninf else JsNum.inf)
    else
      match parseFloatMag l with
      | some q => some (JsNum.fin (if neg then -q else q))
      | none => none

/--
`parseQuantity` from `scaling.ts`: `undefined`/`null` (both `none`) and the
empty string fail; numbers pass through unchanged; otherwise the trimmed
string is tried against the simple-fraction regex (failing on a zero
denominator), the mixed-fraction regex, then `parseFloat` with an `isNaN`
guard.  `none` models the `null` result.
-/
def parseQuantity : Option QVal → Option JsNum
  | none => none
  | some (.num n) => some n
  | some (.str s) =>
    if s = "" then none
    else
      let str := s.trim
      match fracMatch str with
      | some (n, d) =>
        if d ≠ 0 then some (JsNum.fin ((n : ℚ) / (d : ℚ))) else none
      | none =>
        match mixedMatch str with
        | some (w, n, d) =>
          if d ≠ 0 then some (JsNum.fin ((w : ℚ) + (n : ℚ) / (d : ℚ)))
          else none
        | none => parseFloatJs str

/-- The nine standard fraction glyphs of `formatQuantity`, with the decimal
values used by the source (`0.333` and `0.666` literally). -/
def fractionsList : List (ℚ × String) :=
  [(1/8, "⅛"), (1/4, "¼"), (333/1000, "⅓"), (3/8, "⅜"), (1/2, "½"),
   (5/8, "⅝"), (666/1000, "⅔"), (3/4, "¾"), (7/8, "⅞")]

/-- The fraction-glyph scan of `formatQuantity`: first entry whose value is
within `0.02` of `frac` (JS `<` on possibly-NaN values). -/
def findFraction (frac : JsNum) : List (ℚ × String) → Option (ℚ × String)
  | [] => none
  | (v, s) :: rest =>
    if JsNum.jsLt (JsNum.jsAbs (JsNum.jsSub frac (JsNum.fin v))) (JsNum.fin (1/50))
    then some (v, s)
    else findFraction frac rest

/-- `value.toFixed(1)` for a nonnegative rational: nearest tenth, half away
from zero on the nonnegative side, rendered with one fractional digit. -/
def toFixed1Nonneg (q : ℚ) : String :=
  let n : ℤ := ⌊10 * q + 1/2⌋
  toString (n / 10) ++ "." ++ toString (n % 10)

/-- JS `Number.prototype.toFixed(1)` (negative values recurse on the
magnitude; nonfinite values render as their `toString`). -/
def jsToFixed1 : JsNum → String
  | .nan => "NaN"
  | .inf => "Infinity"
  | .ninf => "-Infinity"
  | .fin q => if q < 0 then "-" ++ toFixed1Nonneg (-q) else toFixed1Nonneg q

/-- The `.replace(/\.0$/, '')` step of `formatQuantity`. -/
def stripDotZero (s : String) : String :=
  if [ '.', '0' ].IsSuffix s.data then String.mk (s.data.dropLast.dropLast) else s

/--
`formatQuantity` from `scaling.ts`: glyph rendering when the fractional part
is within `0.02` of a standard fraction, one-decimal rendering (with a
trailing `.0` stripped) for values below 10 with a nonzero fractional part,
else the value rounded to the nearest integer.
-/
def formatQuantity (value : JsNum) : String :=
  let whole := JsNum.jsFloor value
  let frac := JsNum.jsSub value whole
  match findFraction frac fractionsList with
  | some (_, fracStr) =>
    if JsNum.jsStrictEq whole (JsNum.fin 0) then fracStr
    else jsNumToString whole ++ fracStr
  | none =>
    if JsNum.jsLt value (JsNum.fin 10) && JsNum.jsStrictNe frac (JsNum.fin 0) then
      stripDotZero (jsToFixed1 value)
    else
      jsNumToString (JsNum.jsRound value)

/-- JS `String.prototype.toLowerCase`, modelled on the ASCII range (the unit
tables are all ASCII). -/
def jsToLower (s : String) : String := s.map Char.toLower

/--
`roundToSensible` from `scaling.ts`, on finite values: the unit-keyed rounding
policy table (quarter for spoon/cup units, half for ounces, five for
grams/milliliters, whole for count units, hundredth otherwise), matched on the
lowercased unit.
-/
def roundToSensible (value : ℚ) (unit : String) : ℚ :=
  let unitLower := jsToLower unit
  if unitLower ∈ ["tsp", "teaspoon", "teaspoons", "tbsp", "tablespoon", "tablespoons"] then
    jsRoundQ (value * 4) / 4
  else if unitLower ∈ ["cup", "cups", "c"] then
    jsRoundQ (value * 4) / 4
  else if unitLower ∈ ["oz", "ounce", "ounces"] then
    jsRoundQ (value * 2) / 2
  else if unitLower ∈ ["g", "gram", "grams"] then
    jsRoundQ (value / 5) * 5
  else if unitLower ∈ ["ml", "milliliter", "milliliters"] then
    jsRoundQ (value / 5) * 5
  else if unitLower ∈ ["piece", "pieces", "clove", "cloves", "slice", "slices", "egg", "eggs"] then
    jsRoundQ value
  else
    jsRoundQ (value * 100) / 100

/-- `roundToSensible` lifted to JS numbers: NaN and the infinities pass
through every branch of the source unchanged (`Math.round` and the scalings
are identities on them), finite values use the rational policy table. -/
def roundToSensibleJs : JsNum → String → JsNum
  | JsNum.fin q, unit => JsNum.fin (roundToSensible q unit)
  | v, _ => v

/-- Result record of `scaleIngredient`. -/
structure ScaledResult where
  display : String
  scaled : Bool
deriving DecidableEq

/--
`formatIngredientDisplay` from `scaling.ts`: quantity (re-formatted through
`parseQuantity`/`formatQuantity` when parseable, verbatim otherwise), unit,
name, and a `(to taste)` marker for the `toTaste` scaling mode, joined by
spaces.
-/
def formatIngredientDisplay (ingredient : ScalableIngredient) : String :=
  let quantityParts : List String :=
    match ingredient.quantity with
    | some qv =>
      if qv ≠ QVal.str "" then
        match parseQuantity (some qv) with
        | some q => [formatQuantity q]
        | none => [qvalToString qv]
      else []
    | none => []
  let unitParts : List String :=
    match ingredient.unit with
    | some u => if u ≠ "" then [u] else []
    | none => []
  let tasteParts : List String :=
    if ingredient.scalingMode = some ScalingMode.toTaste then ["(to taste)"] else []
  String.intercalate " " (quantityParts ++ unitParts ++ [ingredient.name] ++ tasteParts)

/--
`scaleIngredient` from `scaling.ts`: `toTaste` and `fixed` modes return the
unscaled display with `scaled := false`; otherwise the parsed quantity is
multiplied by the factor, rounded per unit, formatted and joined with unit and
name, with `scaled := (scaleFactor !== 1)`; an unparseable quantity falls back
to the unscaled display.
-/
def scaleIngredient (ingredient : ScalableIngredient) (scaleFactor : JsNum) :
    ScaledResult :=
  let mode := ingredient.scalingMode.getD ScalingMode.proportional
  if mode = ScalingMode.toTaste then
    { display := formatIngredientDisplay ingredient, scaled := false }
  else if mode = ScalingMode.fixed then
    { display := formatIngredientDisplay ingredient, scaled := false }
  else
    match parseQuantity ingredient.quantity with
    | none =>
      { display := formatIngredientDisplay ingredient, scaled := false }
    | some originalQty =>
      let unit := ingredient.unit.getD ""
      let scaledQty := roundToSensibleJs (JsNum.jsMul originalQty scaleFactor) unit
      let formattedQty := formatQuantity scaledQty
      let parts : List String :=
        [formattedQty] ++ (if unit ≠ "" then [unit] else []) ++ [ingredient.name]
      { display := String.intercalate " " parts,
        scaled := JsNum.jsStrictNe scaleFactor (JsNum.fin 1) }

/-- `calculateScaleFactor` from `scaling.ts`: guard nonpositive original
servings to a factor of 1, else `target / original`. -/
def calculateScaleFactor (originalServings targetServings : JsNum) : JsNum :=
  if JsNum.jsLe originalServings (JsNum.fin 0) then JsNum.fin 1
  else JsNum.jsDiv targetServings originalServings

/-! ## Normalizer module (`src/lib/normalize.ts`, full-`SoustackRecipe` revision)

Numeric fields of the recipe record (yield amount, timing minutes, explicit
total-time minutes) are modelled as exact rationals; quantity payloads, which
flow into `String(...)` only, keep the full `QVal` shape. -/

/-- A structured quantity `{ amount, unit? }` (current schema). -/
structure QuantityObj where
  amount : QVal
  unit : Option String := none

/-- An ingredient quantity: a legacy bare number/string, or the structured
object form. -/
inductive IngQuantity where
  | val (v : QVal) : IngQuantity
  | obj (o : QuantityObj) : IngQuantity

/-- The structured-ingredient record handled by `normalizeIngredients`;
`scalingMode` collapses `scaling?.mode?`. -/
structure StructIngredient where
  name : String
  quantity : Option IngQuantity := none
  unit : Option String := none
  prep : Option String := none
  notes : Option String := none
  toTaste : Bool := false
  scalingMode : Option ScalingMode := none

/-- An ingredient entry: an opaque string, or a structured record. -/
inductive Ingredient where
  | plain (s : String) : Ingredient
  | structured (i : StructIngredient) : Ingredient

/-- A duration object, as a key-presence record: the source branches on which
keys exist (`'minutes' in d` etc.), so each possible key is an `Option`. -/
structure Duration where
  minutes : Option ℚ := none
  minMinutes : Option ℚ := none
  maxMinutes : Option ℚ := none
  hours : Option ℚ := none

/-- The `activity` classification of a timing object. -/
inductive Activity where
  | active : Activity
  | passive : Activity
deriving DecidableEq

/-- A timing object on a structured instruction. -/
structure Timing where
  duration : Option Duration := none
  activity : Option Activity := none
  completionCue : Option String := none

/-- An instruction entry: an opaque string, or step text with optional timing. -/
inductive Instruction where
  | plain (s : String) : Instruction
  | structured (text : String) (timing : Option Timing) : Instruction

/-- A mise-en-place entry: a string, or an object carrying display `text`. -/
inductive MiseItem where
  | plain (s : String) : MiseItem
  | structured (text : String) : MiseItem

/-- `{ iso8601 }` inside a storage method; absent or non-string values are
modelled as `none` (the source treats them identically via its
`typeof` guard). -/
structure StorageDuration where
  iso8601 : Option String := none

/-- A storage method: optional duration object and optional free-text note. -/
structure StorageMethod where
  duration : Option StorageDuration := none
  notes : Option String := none

/-- The storage map keyed by the three locations. -/
structure StorageInfo where
  refrigerated : Option StorageMethod := none
  frozen : Option StorageMethod := none
  roomTemp : Option StorageMethod := none

/-- `{ amount, unit }` of the structured `yield` field. -/
structure YieldInfo where
  amount : ℚ
  unit : String

/-- `{ total: { minutes } }` of the structured `time` field. -/
structure TimeTotal where
  minutes : ℚ

/-- The optional `time` field (its `total` key may itself be absent). -/
structure TimeInfo where
  total : Option TimeTotal := none

/-- The recipe record accepted by `normalizeToDisplay`; every field the source
guards against being absent or non-array is an `Option`. -/
structure SoustackRecipe where
  name : Option String := none
  description : Option String := none
  yieldInfo : Option YieldInfo := none
  servings : Option String := none
  time : Option TimeInfo := none
  ingredients : Option (List Ingredient) := none
  instructions : Option (List Instruction) := none
  miseEnPlace : Option (List MiseItem) := none
  storage : Option StorageInfo := none

/-- Display projection of one ingredient. -/
structure DisplayIngredient where
  id : String
  text : String
  quantity : Option String := none
  unit : Option String := none
  name : String
  notes : Option String := none
  toTaste : Bool := false
  isStructured : Bool

/-- Display projection of one instruction. -/
structure DisplayInstruction where
  id : String
  text : String
  timing : Option String := none
  isPassive : Bool := false
  hasTiming : Bool

/-- Display projection of the storage map. -/
structure DisplayStorage where
  refrigerated : Option String := none
  frozen : Option String := none
  roomTemp : Option String := none

/-- The stats block of the display record. -/
structure Stats where
  structuredIngredients : ℕ
  totalIngredients : ℕ
  timedSteps : ℕ
  totalSteps : ℕ
  hasMise : Bool
  hasStorage : Bool

/-- The normalized display record. -/
structure DisplayRecipe where
  title : String
  description : Option String
  servings : Option String
  miseEnPlace : List String
  ingredients : List DisplayIngredient
  instructions : List DisplayInstruction
  storage : Option DisplayStorage
  totalTime : Option String
  stats : Stats

/-- JS string truthiness filter: a present, nonempty string. -/
def truthyStr : Option String → Option String
  | some s => if s ≠ "" then some s else none
  | none => none

/-- A truthy optional string as a zero-or-one element list of display parts. -/
def optTruthyList (o : Option String) : List String :=
  match o with
  | some s => if s ≠ "" then [s] else []
  | none => []

/-- `items.map((item, index) => ...)` with its running index made explicit. -/
def mapWithIndexFrom (f : ℕ → α → β) : ℕ → List α → List β
  | _, [] => []
  | i, a :: as => f i a :: mapWithIndexFrom f (i + 1) as

/-- Whether an ingredient quantity is the structured object form (the
`typeof item.quantity === 'object' && 'amount' in item.quantity` test). -/
def isQuantityObj : Option IngQuantity → Bool
  | some (.obj _) => true
  | _ => false

/-- The body of `normalizeIngredients` for one item at a given index. -/
def normalizeIngredient (index : ℕ) : Ingredient → DisplayIngredient
  | .plain s =>
    { id := "ing-" ++ toString index, text := s, name := s, isStructured := false }
  | .structured item =>
    let quantityParts : List String :=
      match item.quantity with
      | some (.obj o) => [qvalToString o.amount] ++ optTruthyList o.unit
      | some (.val v) => [qvalToString v] ++ optTruthyList item.unit
      | none => optTruthyList item.unit
    let isToTaste : Bool :=
      item.toTaste || decide (item.scalingMode = some ScalingMode.toTaste)
    let parts : List String :=
      quantityParts ++ [item.name] ++
      (if isToTaste then ["(to taste)"] else []) ++
      (match truthyStr item.prep with
       | some p => ["(" ++ p ++ ")"]
       | none => []) ++
      (match truthyStr item.notes with
       | some n => ["â€” " ++ n]
       | none => [])
    let hasQuantity := item.quantity.isSome || isQuantityObj item.quantity
    let isStructured :=
      hasQuantity || item.unit.isSome || isToTaste || item.prep.isSome
    let quantityStr : Option String :=
      match item.quantity with
      | some (.obj o) => some (qvalToString o.amount)
      | some (.val v) => some (qvalToString v)
      | none => none
    let unitStr : Option String :=
      match item.quantity with
      | some (.obj o) =>
        match o.unit with
        | some u => some u
        | none => truthyStr item.unit
      | _ => truthyStr item.unit
    { id := "ing-" ++ toString index,
      text := String.intercalate " " parts,
      quantity := quantityStr,
      unit := unitStr,
      name := item.name,
      notes := item.notes,
      toTaste := isToTaste,
      isStructured := isStructured }

/-- `normalizeIngredients`: non-array input degrades to an empty list; list
input maps each item with its positional identifier. -/
def normalizeIngredients : Option (List Ingredient) → List DisplayIngredient
  | none => []
  | some items => mapWithIndexFrom normalizeIngredient 0 items

/-- The duration-parts computation of `formatTiming` (its `parts` array): a
`{minMinutes,maxMinutes}` range renders as `min-maxm`; a single minutes value
renders as `Xm` or `Xh Ym`; a legacy pair (reached only when the `minutes` key
is absent) renders its truthy `hours`. -/
def timingParts (duration : Duration) : List String :=
  match duration.minMinutes, duration.maxMinutes with
  | some mn, some mx => [ratToJsString mn ++ "-" ++ ratToJsString mx ++ "m"]
  | _, _ =>
    match duration.minutes with
    | some mins =>
      if 60 ≤ mins then
        let hours : ℤ := ⌊mins / 60⌋
        let remainder : ℚ := jsModQ mins 60
        if 0 < remainder then
          [toString hours ++ "h " ++ ratToJsString remainder ++ "m"]
        else
          [toString hours ++ "h"]
      else
        [ratToJsString mins ++ "m"]
    | none =>
      match duration.hours with
      | some h => if h ≠ 0 then [ratToJsString h ++ "h"] else []
      | none => []

/--
`formatTiming`: an absent duration falls back to a truthy completion cue;
otherwise the duration parts are rendered; when no parts were produced, a
truthy completion cue is returned verbatim, else nothing; the `" (passive)"`
suffix is appended to duration-derived output only.
-/
def formatTiming : Option Timing → Option String
  | none => none
  | some timing =>
    match timing.duration with
    | none => truthyStr timing.completionCue
    | some duration =>
      match timingParts duration with
      | [] => truthyStr timing.completionCue
      | parts =>
        let result := String.intercalate " " parts
        if timing.activity = some Activity.passive then
          some (result ++ " (passive)")
        else
          some result

/-- The body of `normalizeInstructions` for one item at a given index. -/
def normalizeInstruction (index : ℕ) : Instruction → DisplayInstruction
  | .plain s =>
    { id := "step-" ++ toString index, text := s, hasTiming := false }
  | .structured text timing =>
    let t := formatTiming timing
    { id := "step-" ++ toString index,
      text := text,
      timing := t,
      isPassive :=
        match timing with
        | some tm => decide (tm.activity = some Activity.passive)
        | none => false,
      hasTiming := t.isSome }

/-- `normalizeInstructions`: non-array input degrades to an empty list; list
input maps each item with its positional identifier. -/
def normalizeInstructions : Option (List Instruction) → List DisplayInstruction
  | none => []
  | some items => mapWithIndexFrom normalizeInstruction 0 items

/-- `normalizeMiseEnPlace`: map items to their display text and drop falsy
(empty) results; non-array input degrades to an empty list. -/
def normalizeMiseEnPlace : Option (List MiseItem) → List String
  | none => []
  | some items =>
    (items.map fun item =>
      match item with
      | .plain s => s
      | .structured t => t).filter (fun s => s != "")

/-- One attempt of the unanchored regex `pre(\d+)suf` at the head of the
character list: literal prefix, a nonempty greedy digit run, then the suffix
character. -/
def scanPNumHere (pre : List Char) (suf : Char) (l : List Char) : Option ℕ :=
  if pre.isPrefixOf l then
    let rest := l.drop pre.length
    let d := rest.span Char.isDigit
    match d.2 with
    | c :: _ => if d.1 ≠ [] ∧ c = suf then some (natOfDigits d.1) else none
    | [] => none
  else none

/-- Unanchored scan for `pre(\d+)suf` (the JS `String.prototype.match` search
with a regex such as `/P(\d+)D/`), returning the first captured number. -/
def scanPNum (pre : List Char) (suf : Char) : List Char → Option ℕ
  | [] => none
  | c :: rest =>
    match scanPNumHere pre suf (c :: rest) with
    | some n => some n
    | none => scanPNum pre suf rest

/-- Singular/plural wording helper of `formatStorageDuration`. -/
def pluralize (n : ℕ) (singular plural : String) : String :=
  if n = 1 then "1 " ++ singular else toString n ++ " " ++ plural

/-- The ISO-8601 pattern cascade of `formatStorageDuration`: day (`P<n>D`),
week (`P<n>W`), month (`P<n>M`), hour (`PT<n>H`), in that check order;
`none` when nothing matches (the source then keeps the raw string). -/
def parseIso8601Text (iso : String) : Option String :=
  match scanPNum ['P'] 'D' iso.data with
  | some n => some (pluralize n "day" "days")
  | none =>
    match scanPNum ['P'] 'W' iso.data with
    | some n => some (pluralize n "week" "weeks")
    | none =>
      match scanPNum ['P'] 'M' iso.data with
      | some n => some (pluralize n "month" "months")
      | none =>
        match scanPNum ['P','T'] 'H' iso.data with
        | some n => some (pluralize n "hour" "hours")
        | none => none

/--
`formatStorageDuration`: an absent or falsy ISO string falls back to the note
or a fixed marker; otherwise the ISO pattern cascade produces a text
(defaulting to the raw string), and a truthy note differing from that text
takes precedence.
-/
def formatStorageDuration (method : StorageMethod) : String :=
  match method.duration.bind StorageDuration.iso8601 with
  | none => (truthyStr method.notes).getD "Duration not specified"
  | some iso =>
    if iso = "" then (truthyStr method.notes).getD "Duration not specified"
    else
      let text := (parseIso8601Text iso).getD iso
      match method.notes with
      | some n => if n ≠ "" ∧ n ≠ text then n else text
      | none => text

/-- Number of assigned keys of a display-storage object
(`Object.keys(result).length`). -/
def storageKeyCount (r : DisplayStorage) : ℕ :=
  ([r.refrigerated, r.frozen, r.roomTemp].filter Option.isSome).length

/-- `normalizeStorage`: each location present with a truthy duration object is
formatted; an empty result object is dropped entirely. -/
def normalizeStorage : Option StorageInfo → Option DisplayStorage
  | none => none
  | some storage =>
    let fmt : Option StorageMethod → Option String := fun m =>
      match m with
      | some method => if method.duration.isSome then some (formatStorageDuration method) else none
      | none => none
    let result : DisplayStorage :=
      { refrigerated := fmt storage.refrigerated,
        frozen := fmt storage.frozen,
        roomTemp := fmt storage.roomTemp }
    if storageKeyCount result = 0 then none else some result

/-- `formatMinutes`: hours by `Math.floor(minutes / 60)`, minutes by the JS
remainder `minutes % 60`, with the zero-hour and zero-minute forms. -/
def formatMinutes (minutes : ℚ) : String :=
  let hours : ℤ := ⌊minutes / 60⌋
  let mins : ℚ := jsModQ minutes 60
  if hours = 0 then ratToJsString mins ++ " min"
  else if mins = 0 then toString hours ++ " hr"
  else toString hours ++ " hr " ++ ratToJsString mins ++ " min"

/-- The per-duration contribution inside `calculateTotalTime`: the `minutes`
key (when present) wins outright, then a full `{minMinutes,maxMinutes}` range
contributes its mean, then a truthy legacy `hours` contributes `hours * 60`
(its `minutes` companion is unreachable here, the first branch having consumed
any present `minutes` key). -/
def durationContribution (d : Duration) : ℚ :=
  match d.minutes with
  | some m => m
  | none =>
    match d.minMinutes, d.maxMinutes with
    | some mn, some mx => (mn + mx) / 2
    | _, _ =>
      match d.hours with
      | some h => if h ≠ 0 then h * 60 else 0
      | none => 0

/-- `calculateTotalTime`: sum the duration contributions of the structured
instructions carrying a truthy duration; a zero grand total yields no output,
else the total is rounded once and rendered by `formatMinutes`. -/
def calculateTotalTime : Option (List Instruction) → Option String
  | none => none
  | some instructions =>
    let totalMinutes : ℚ :=
      instructions.foldl
        (fun acc item =>
          match item with
          | .plain _ => acc
          | .structured _ timing =>
            match timing with
            | none => acc
            | some t =>
              match t.duration with
              | none => acc
              | some d => acc + durationContribution d)
        0
    if totalMinutes = 0 then none
    else some (formatMinutes (jsRoundQ totalMinutes))

/--
`normalizeToDisplay`: assemble the display record from the per-field
normalizers, preferring the structured yield over the legacy servings string
and the explicit total time over the aggregated one, and derive the stats
block from the already-normalized lists.
-/
def normalizeToDisplay (recipe : SoustackRecipe) : DisplayRecipe :=
  let ingredients := normalizeIngredients recipe.ingredients
  let instructions := normalizeInstructions recipe.instructions
  let miseEnPlace := normalizeMiseEnPlace recipe.miseEnPlace
  let storage := normalizeStorage recipe.storage
  let servings : Option String :=
    match recipe.yieldInfo with
    | some y => some (ratToJsString y.amount ++ " " ++ y.unit)
    | none => recipe.servings
  { title :=
      match recipe.name with
      | some n => if n ≠ "" then n else "Untitled Recipe"
      | none => "Untitled Recipe",
    description := recipe.description,
    servings := servings,
    miseEnPlace := miseEnPlace,
    ingredients := ingredients,
    instructions := instructions,
    storage := storage,
    totalTime :=
      match recipe.time.bind TimeInfo.total with
      | some tot => some (formatMinutes tot.minutes)
      | none => calculateTotalTime recipe.instructions,
    stats :=
      { structuredIngredients := (ingredients.filter (·.isStructured)).length,
        totalIngredients := ingredients.length,
        timedSteps := (instructions.filter (·.hasTiming)).length,
        totalSteps := instructions.length,
        hasMise := decide (0 < miseEnPlace.length),
        hasStorage :=
          match storage with
          | some st => decide (0 < storageKeyCount st)
          | none => false } }

/-! ## Derived definitions used by the claim statements -/

/-- The glyph scan of `formatQuantity` restricted to finite values: first
entry within `0.02` of `frac` (coincides with `findFraction` on `fin` inputs,
`findFraction_fin`). -/
def findFractionQ (frac : ℚ) : List (ℚ × String) → Option (ℚ × String)
  | [] => none
  | (v, s) :: rest =>
    if |frac - v| < 1/50 then some (v, s) else findFractionQ frac rest

/-- Whether `formatQuantity` takes its glyph branch at a finite value. -/
def glyphHit (q : ℚ) : Bool :=
  (findFractionQ (q - ((⌊q⌋ : ℤ) : ℚ)) fractionsList).isSome

/-- The numeric value denoted by the one-decimal `toFixed(1)` rendering:
nearest tenth, half away from zero. -/
def toFixed1Val (q : ℚ) : ℚ :=
  if q < 0 then -(((⌊10 * -q + 1/2⌋ : ℤ) : ℚ) / 10)
  else ((⌊10 * q + 1/2⌋ : ℤ) : ℚ) / 10

/-- The numeric value denoted by the string `formatQuantity (JsNum.fin q)`
renders, branch for branch: the glyph branch denotes whole plus the matched
fraction value, the one-decimal branch the value rounded to tenths, the final
branch the value rounded to the nearest integer. -/
def formatQuantityVal (q : ℚ) : ℚ :=
  let whole : ℚ := ((⌊q⌋ : ℤ) : ℚ)
  let frac := q - whole
  match findFractionQ frac fractionsList with
  | some (v, _) => whole + v
  | none =>
    if q < 10 ∧ frac ≠ 0 then toFixed1Val q
    else ((⌊q + 1/2⌋ : ℤ) : ℚ)

/-- The rounding granularity of each unit class, written from the claim's
policy table (quarter for the spoon/cup families, half for ounces, five for
grams/milliliters, whole for count units, hundredth otherwise). -/
def granularity (unit : String) : ℚ :=
  let u := jsToLower unit
  if u ∈ ["tsp", "teaspoon", "teaspoons", "tbsp", "tablespoon", "tablespoons"] then 1/4
  else if u ∈ ["cup", "cups", "c"] then 1/4
  else if u ∈ ["oz", "ounce", "ounces"] then 1/2
  else if u ∈ ["g", "gram", "grams"] then 5
  else if u ∈ ["ml", "milliliter", "milliliters"] then 5
  else if u ∈ ["piece", "pieces", "clove", "cloves", "slice", "slices", "egg", "eggs"] then 1
  else 1/100

/-! ## Theorems settling the claims -/

/--
C1: refuted on the code.  The spec demands that the Scaler never emit a
`NaN`/`Infinity` rendering, explicitly including a `NaN` quantity; but for an
ingredient whose quantity is the number `NaN` (which `parseQuantity` passes
through unchanged: its `isNaN` guard covers only the string path),
`scaleIngredient` at factor 2 renders the display string `"NaN cups flour"`.
-/
theorem C1_scaleIngredient_nan_display :
    scaleIngredient
      { name := "flour", quantity := some (QVal.num JsNum.nan), unit := some "cups" }
      (JsNum.fin 2) =
      { display := "NaN cups flour", scaled := true } := by
  rfl

/--
C2: refuted on the code.  For a legacy `{hours: 1, minutes: 30}` duration the
claim's accounting adds `1*60 + 30 = 90` minutes (which `formatMinutes` would
render as `"1 hr 30 min"`), but `calculateTotalTime`'s `'minutes' in d` branch
consumes any duration whose `minutes` key is present, so the hours are dropped
and the total renders as `"30 min"`.
-/
theorem C2_calculateTotalTime_legacy_pair :
    calculateTotalTime
      (some [Instruction.structured "rest"
        (some { duration := some { minutes := some 30, hours := some 1 } })]) =
      some "30 min" ∧
    formatMinutes (jsRoundQ (1 * 60 + 30)) = "1 hr 30 min" := by
  constructor
  · with_unfolding_all decide
  · with_unfolding_all decide

/--
C4: confirmed.  An ingredient whose scaling mode is `toTaste` or `fixed` is
returned by `scaleIngredient` with `scaled = false` and the unscaled
`formatIngredientDisplay` text, for every scale factor.
-/
theorem C4_mode_invariance (ing : ScalableIngredient) (factor : JsNum)
    (h : ing.scalingMode = some ScalingMode.toTaste ∨
         ing.scalingMode = some ScalingMode.fixed) :
    scaleIngredient ing factor =
      { display := formatIngredientDisplay ing, scaled := false } := by
  rcases h with h | h <;> simp [scaleIngredient, h, Option.getD]

/-- C4 witness: the to-taste salt ingredient at factor 2, whose unscaled
display is `"salt (to taste)"`. -/
theorem C4_mode_invariance_witness :
    scaleIngredient { name := "salt", scalingMode := some ScalingMode.toTaste }
        (JsNum.fin 2) =
      { display := formatIngredientDisplay
          { name := "salt", scalingMode := some ScalingMode.toTaste },
        scaled := false } ∧
    formatIngredientDisplay { name := "salt", scalingMode := some ScalingMode.toTaste } =
      "salt (to taste)" :=
  ⟨C4_mode_invariance _ (JsNum.fin 2) (Or.inl rfl), rfl⟩

/--
C7: confirmed.  `calculateScaleFactor` returns `target / original` for a
positive original servings count (in particular 1 when both agree), and the
literal 1 — not an infinity or NaN — for a nonpositive original.
-/
theorem C7_scale_factor_guard (o t u : ℚ) (ho : 0 < o) (hu : u ≤ 0) :
    calculateScaleFactor (JsNum.fin o) (JsNum.fin t) = JsNum.fin (t / o) ∧
    calculateScaleFactor (JsNum.fin o) (JsNum.fin o) = JsNum.fin 1 ∧
    calculateScaleFactor (JsNum.fin u) (JsNum.fin t) = JsNum.fin 1 := by
  have hne : o ≠ 0 := ne_of_gt ho
  have hlt : ¬ (o ≤ 0) := not_le.mpr ho
  refine ⟨?_, ?_, ?_⟩
  · simp [calculateScaleFactor, JsNum.jsLe, JsNum.jsDiv, hlt, hne]
  · simp [calculateScaleFactor, JsNum.jsLe, JsNum.jsDiv, hlt, hne, div_self hne]
  · simp [calculateScaleFactor, JsNum.jsLe, hu]

/-- C7 witness: original 4 and 0, target 8. -/
theorem C7_scale_factor_guard_witness :
    calculateScaleFactor (JsNum.fin 4) (JsNum.fin 8) = JsNum.fin (8 / 4) ∧
    calculateScaleFactor (JsNum.fin 4) (JsNum.fin 4) = JsNum.fin 1 ∧
    calculateScaleFactor (JsNum.fin 0) (JsNum.fin 8) = JsNum.fin 1 :=
  C7_scale_factor_guard 4 8 0 (by norm_num) le_rfl

/--
C8: confirmed.  When a storage method's ISO-8601 duration parses to a text and
a nonempty note differing from that text is present, `formatStorageDuration`
returns the note alone.
-/
theorem C8_storage_note_precedence (m : StorageMethod) (iso t n : String)
    (hd : m.duration.bind StorageDuration.iso8601 = some iso)
    (hiso : iso ≠ "")
    (hp : parseIso8601Text iso = some t)
    (hn : m.notes = some n) (hne : n ≠ "") (hnt : n ≠ t) :
    formatStorageDuration m = n := by
  simp [formatStorageDuration, hd, hiso, hp, hn, hne, hnt]

/-- C8 witness: the spec's example, `P3D` (parsing to `"3 days"`) with the
note `"in an airtight container"`. -/
theorem C8_storage_note_precedence_witness :
    formatStorageDuration
      { duration := some { iso8601 := some "P3D" },
        notes := some "in an airtight container" } = "in an airtight container" :=
  C8_storage_note_precedence _ "P3D" "3 days" "in an airtight container"
    rfl (by decide) rfl rfl (by decide) (by decide)

/-- `normalizeStorage` only produces a storage object with at least one
assigned key. -/
theorem normalizeStorage_keyCount_pos (os : Option StorageInfo)
    (st : DisplayStorage) (h : normalizeStorage os = some st) :
    0 < storageKeyCount st := by
  cases os with
  | none => exact absurd h (by simp [normalizeStorage])
  | some s =>
    simp only [normalizeStorage] at h
    split at h
    · exact absurd h (by simp)
    · next hne =>
      cases h
      exact Nat.pos_of_ne_zero hne

/--
C9: confirmed.  The stats block of every display record is internally
consistent with the record: the ingredient counters are the filtered and total
lengths of the display ingredient list (structured ≤ total), the step counters
likewise for instructions, `hasMise` holds exactly when the mise list is
nonempty, and `hasStorage` holds exactly when the storage section is present.
-/
theorem C9_stats_consistency (r : SoustackRecipe) :
    (normalizeToDisplay r).stats.totalIngredients =
      (normalizeToDisplay r).ingredients.length ∧
    (normalizeToDisplay r).stats.structuredIngredients =
      ((normalizeToDisplay r).ingredients.filter (·.isStructured)).length ∧
    (normalizeToDisplay r).stats.structuredIngredients ≤
      (normalizeToDisplay r).stats.totalIngredients ∧
    (normalizeToDisplay r).stats.totalSteps =
      (normalizeToDisplay r).instructions.length ∧
    (normalizeToDisplay r).stats.timedSteps =
      ((normalizeToDisplay r).instructions.filter (·.hasTiming)).length ∧
    (normalizeToDisplay r).stats.timedSteps ≤ (normalizeToDisplay r).stats.totalSteps ∧
    ((normalizeToDisplay r).stats.hasMise = true ↔
      (normalizeToDisplay r).miseEnPlace ≠ []) ∧
    ((normalizeToDisplay r).stats.hasStorage = true ↔
      (normalizeToDisplay r).storage.isSome = true) := by
  refine ⟨rfl, rfl, List.length_filter_le _ _, rfl, rfl, List.length_filter_le _ _, ?_, ?_⟩
  · simp only [normalizeToDisplay, decide_eq_true_eq]
    exact ⟨fun h => List.ne_nil_of_length_pos h, fun h => List.length_pos.mpr h⟩
  · simp only [normalizeToDisplay]
    cases h : normalizeStorage r.storage with
    | none => simp
    | some st =>
      simpa using decide_eq_true (normalizeStorage_keyCount_pos _ _ h)

/-- The identifier assigned by `normalizeIngredient` is a pure function of
the position. -/
theorem normalizeIngredient_id (i : ℕ) (item : Ingredient) :
    (normalizeIngredient i item).id = "ing-" ++ toString i := by
  cases item <;> rfl

/-- The identifier assigned by `normalizeInstruction` is a pure function of
the position. -/
theorem normalizeInstruction_id (i : ℕ) (item : Instruction) :
    (normalizeInstruction i item).id = "step-" ++ toString i := by
  cases item <;> rfl

/-- `mapWithIndexFrom` preserves length. -/
theorem mapWithIndexFrom_length (f : ℕ → α → β) (n : ℕ) (l : List α) :
    (mapWithIndexFrom f n l).length = l.length := by
  induction l generalizing n with
  | nil => rfl
  | cons a as ih => simp [mapWithIndexFrom, ih]

/-- Element lookup through `mapWithIndexFrom`. -/
theorem mapWithIndexFrom_get? (f : ℕ → α → β) (n i : ℕ) (l : List α) :
    (mapWithIndexFrom f n l).get? i = (l.get? i).map (f (n + i)) := by
  induction l generalizing n i with
  | nil => simp [mapWithIndexFrom]
  | cons a as ih =>
    cases i with
    | zero => simp [mapWithIndexFrom]
    | succ i =>
      simp only [mapWithIndexFrom, List.get?_cons_succ, ih]
      rw [Nat.succ_add, Nat.add_succ]

/--
C10: confirmed.  The Normalizer's display lists have exactly the length of
their inputs, the entry at position `i` is the normalization of the input at
position `i` (no drop, no reorder), and its identifier is `ing-i`
respectively `step-i` — a pure function of input position.
-/
theorem C10_positional_identity (items : List Ingredient) (steps : List Instruction) :
    (normalizeIngredients (some items)).length = items.length ∧
    (∀ i, (normalizeIngredients (some items)).get? i =
      (items.get? i).map (normalizeIngredient i)) ∧
    (∀ i, ((normalizeIngredients (some items)).get? i).map (·.id) =
      (items.get? i).map (fun _ => "ing-" ++ toString i)) ∧
    (normalizeInstructions (some steps)).length = steps.length ∧
    (∀ i, (normalizeInstructions (some steps)).get? i =
      (steps.get? i).map (normalizeInstruction i)) ∧
    (∀ i, ((normalizeInstructions (some steps)).get? i).map (·.id) =
      (steps.get? i).map (fun _ => "step-" ++ toString i)) := by
  have hig : ∀ i, (normalizeIngredients (some items)).get? i =
      (items.get? i).map (normalizeIngredient i) := by
    intro i
    simpa using mapWithIndexFrom_get? normalizeIngredient 0 i items
  have hst : ∀ i, (normalizeInstructions (some steps)).get? i =
      (steps.get? i).map (normalizeInstruction i) := by
    intro i
    simpa using mapWithIndexFrom_get? normalizeInstruction 0 i steps
  refine ⟨mapWithIndexFrom_length _ _ _, hig, ?_, mapWithIndexFrom_length _ _ _, hst, ?_⟩
  · intro i
    rw [hig i]
    cases items.get? i with
    | none => rfl
    | some it => simp [normalizeIngredient_id]
  · intro i
    rw [hst i]
    cases steps.get? i with
    | none => rfl
    | some it => simp [normalizeInstruction_id]

/-- String append acts as list append on the underlying character data. -/
theorem string_data_append (s t : String) : (s ++ t).data = s.data ++ t.data := by
  cases s
  cases t
  rfl

/-- A truthy-filtered cue equal to `some s` forces the cue itself to be
`some s`. -/
theorem truthyStr_eq_some (o : Option String) (s : String)
    (h : truthyStr o = some s) : o = some s := by
  cases o with
  | none => exact absurd h (by simp [truthyStr])
  | some c =>
    simp only [truthyStr] at h
    split at h
    · cases h; rfl
    · exact absurd h (by simp)

/--
C3: refuted on the code.  A passive timing with no duration but a completion
cue produces the cue verbatim: `formatTiming` returns early from its cue
fallbacks without appending the `" (passive)"` suffix, so the output
`"until golden"` does not end with the suffix.
-/
theorem C3_passive_cue_counterexample :
    formatTiming (some { duration := none, activity := some Activity.passive,
                         completionCue := some "until golden" }) =
      some "until golden" ∧
    ¬ (" (passive)").data.IsSuffix ("until golden").data := by
  exact ⟨rfl, by decide⟩

/--
C3 amended: whenever `formatTiming` produces output for a passive timing, the
output either ends with the `" (passive)"` suffix (every duration-derived
rendering) or is the completion cue returned verbatim (the cue fallbacks,
which skip the suffix).
-/
theorem C3_passive_suffix_amended (tm : Timing) (s : String)
    (hact : tm.activity = some Activity.passive)
    (h : formatTiming (some tm) = some s) :
    (" (passive)").data.IsSuffix s.data ∨ tm.completionCue = some s := by
  simp only [formatTiming] at h
  split at h
  · exact Or.inr (truthyStr_eq_some _ _ h)
  · split at h
    · exact Or.inr (truthyStr_eq_some _ _ h)
    · rw [hact, if_pos rfl] at h
      cases h
      left
      rw [string_data_append]
      exact List.suffix_append _ _

/-- C3 witness: a five-minute passive duration renders as
`"5m (passive)"`, which carries the suffix. -/
theorem C3_passive_suffix_witness :
    (" (passive)").data.IsSuffix ("5m (passive)").data ∨
      ({ duration := some { minutes := some 5 },
         activity := some Activity.passive } : Timing).completionCue =
        some "5m (passive)" :=
  C3_passive_suffix_amended _ "5m (passive)" rfl (by with_unfolding_all rfl)

/--
C6: confirmed.  `roundToSensible` always returns an integer multiple of the
granularity of the unit's class (quarters for the spoon and cup families,
halves for ounces, fives for grams and milliliters, whole numbers for the
count units, hundredths for unrecognized units), and unit matching is
case-insensitive: two units with the same lowercasing round identically.
-/
theorem C6_roundToSensible_granularity (v : ℚ) (u₁ u₂ : String)
    (h : jsToLower u₁ = jsToLower u₂) :
    (∃ k : ℤ, roundToSensible v u₁ = (k : ℚ) * granularity u₁) ∧
    roundToSensible v u₁ = roundToSensible v u₂ := by
  constructor
  · simp only [roundToSensible, granularity, jsRoundQ]
    split_ifs
    · exact ⟨⌊v * 4 + 1/2⌋, by ring⟩
    · exact ⟨⌊v * 4 + 1/2⌋, by ring⟩
    · exact ⟨⌊v * 2 + 1/2⌋, by ring⟩
    · exact ⟨⌊v / 5 + 1/2⌋, by ring⟩
    · exact ⟨⌊v / 5 + 1/2⌋, by ring⟩
    · exact ⟨⌊v + 1/2⌋, by ring⟩
    · exact ⟨⌊v * 100 + 1/2⌋, by ring⟩
  · unfold roundToSensible
    rw [h]

/-- C6 witness: `103` grams under the uppercase unit `"G"` rounds to `105`, a
multiple of the gram granularity 5, and matches the lowercase unit. -/
theorem C6_roundToSensible_granularity_witness :
    ((∃ k : ℤ, roundToSensible 103 "G" = (k : ℚ) * granularity "G") ∧
      roundToSensible 103 "G" = roundToSensible 103 "g") ∧
    roundToSensible 103 "G" = 105 :=
  ⟨C6_roundToSensible_granularity 103 "G" "g" (by with_unfolding_all rfl),
   by with_unfolding_all decide⟩

/-- The glyph scan only answers with an entry within `0.02` of the fractional
part. -/
theorem findFractionQ_sound (L : List (ℚ × String)) (frac v : ℚ) (s : String)
    (h : findFractionQ frac L = some (v, s)) : |frac - v| < 1/50 := by
  induction L with
  | nil => exact absurd h (by simp [findFractionQ])
  | cons p rest ih =>
    obtain ⟨pv, ps⟩ := p
    simp only [findFractionQ] at h
    split at h
    · cases h
      assumption
    · exact ih h

/-- Rounding to tenths moves a rational by at most `1/20`. -/
theorem tenth_bound (x : ℚ) : |((⌊10 * x + 1/2⌋ : ℤ) : ℚ) / 10 - x| ≤ 1/20 := by
  have hr : ((⌊10 * x + 1/2⌋ : ℤ) : ℚ) = ((round (10 * x) : ℤ) : ℚ) := by
    rw [round_eq]
  rw [hr]
  have h1 : ((round (10 * x) : ℤ) : ℚ) / 10 - x =
      (((round (10 * x) : ℤ) : ℚ) - 10 * x) / 10 := by ring
  rw [h1, abs_div]
  have h2 : |((round (10 * x) : ℤ) : ℚ) - 10 * x| ≤ 1/2 := by
    rw [abs_sub_comm]
    exact abs_sub_round (10 * x)
  rw [show |(10 : ℚ)| = 10 by norm_num]
  linarith

/-- The one-decimal rendering value moves a rational by at most `1/20`. -/
theorem toFixed1Val_bound (q : ℚ) : |toFixed1Val q - q| ≤ 1/20 := by
  unfold toFixed1Val
  split
  · have h := tenth_bound (-q)
    have he : -(((⌊10 * -q + 1/2⌋ : ℤ) : ℚ) / 10) - q =
        -(((⌊10 * -q + 1/2⌋ : ℤ) : ℚ) / 10 - -q) := by ring
    rw [he, abs_neg]
    exact h
  · exact tenth_bound q

/-- Rounding to the nearest integer moves a rational by at most `1/2`. -/
theorem half_bound (q : ℚ) : |((⌊q + 1/2⌋ : ℤ) : ℚ) - q| ≤ 1/2 := by
  have hr : ((⌊q + 1/2⌋ : ℤ) : ℚ) = ((round q : ℤ) : ℚ) := by rw [round_eq]
  rw [hr, abs_sub_comm]
  exact abs_sub_round q

/-- Accuracy of `formatQuantity`'s rendering at a finite value: within `0.02`
on the glyph branch, within `0.05` on the one-decimal branch, within `0.5` on
the integer branch. -/
theorem formatQuantityVal_bound (q : ℚ) :
    |formatQuantityVal q - q| ≤
      (if glyphHit q then (1 : ℚ)/50
       else if q < 10 ∧ q - ((⌊q⌋ : ℤ) : ℚ) ≠ 0 then 1/20
       else 1/2) := by
  unfold formatQuantityVal glyphHit
  cases hf : findFractionQ (q - ((⌊q⌋ : ℤ) : ℚ)) fractionsList with
  | some p =>
    obtain ⟨v, s⟩ := p
    simp only [hf, Option.isSome_some, if_true]
    have h := findFractionQ_sound _ _ _ _ hf
    have he : ((⌊q⌋ : ℤ) : ℚ) + v - q = -((q - ((⌊q⌋ : ℤ) : ℚ)) - v) := by ring
    rw [he, abs_neg]
    exact le_of_lt h
  | none =>
    simp only [hf, Option.isSome_none, Bool.false_eq_true, if_false]
    split
    · exact toFixed1Val_bound q
    · exact half_bound q

/--
C5: refuted on the code.  For the fraction string `"3/7"` the claim's
"exact decimal match" clause fails: `parseQuantity` yields `3/7`, but
`formatQuantity` renders `"0.4"` (one decimal place), whose value `2/5` is
neither within the `±0.02` fraction-matching tolerance of `3/7` nor an exact
match of it.
-/
theorem C5_fraction_roundtrip_counterexample :
    parseQuantity (some (QVal.str "3/7")) = some (JsNum.fin (3/7)) ∧
    formatQuantity (JsNum.fin (3/7)) = "0.4" ∧
    formatQuantityVal (3/7) = 2/5 ∧
    ¬ |(2 : ℚ)/5 - 3/7| < 1/50 ∧ (2 : ℚ)/5 ≠ 3/7 := by
  refine ⟨?_, ?_, ?_, ?_, ?_⟩ <;> with_unfolding_all decide

/--
C5 amended: for every fraction string `"a/b"` with `b ≠ 0`, `parseQuantity`
recovers `a/b` exactly, and the value `formatQuantity` then renders is within
the `±0.02` fraction-matching tolerance of `a/b` when the fractional part
matches a standard eighth; otherwise it is `a/b` rounded to one decimal place
(within `±0.05`) when `a/b < 10` with a nonzero fractional part, and `a/b`
rounded to the nearest integer (within `±0.5`) otherwise — not an exact
decimal match in general.
-/
theorem C5_fraction_roundtrip_amended (s : String) (a b : ℕ)
    (hm : fracMatch s.trim = some (a, b)) (hb : b ≠ 0) :
    parseQuantity (some (QVal.str s)) = some (JsNum.fin ((a : ℚ) / (b : ℚ))) ∧
    |formatQuantityVal ((a : ℚ) / (b : ℚ)) - (a : ℚ) / (b : ℚ)| ≤
      (if glyphHit ((a : ℚ) / (b : ℚ)) then (1 : ℚ)/50
       else if (a : ℚ) / (b : ℚ) < 10 ∧
           (a : ℚ) / (b : ℚ) - ((⌊(a : ℚ) / (b : ℚ)⌋ : ℤ) : ℚ) ≠ 0 then 1/20
       else 1/2) := by
  constructor
  · have hs : ¬ (s = "") := by
      intro he
      subst he
      have hnone : fracMatch ("" : String).trim = none := by
        with_unfolding_all decide
      rw [hnone] at hm
      exact Option.noConfusion hm
    simp only [parseQuantity, if_neg hs, hm, if_pos hb]
  · exact formatQuantityVal_bound _

/-- C5 witness: the fraction string `"3/4"` parses to `3/4`. -/
theorem C5_fraction_roundtrip_witness :
    parseQuantity (some (QVal.str "3/4")) =
      some (JsNum.fin (((3 : ℕ) : ℚ) / ((4 : ℕ) : ℚ))) :=
  (C5_fraction_roundtrip_amended "3/4" 3 4 (by with_unfolding_all decide)
    (by decide)).1

end Soustack
